import Mathlib

set_option maxHeartbeats 1000000
set_option maxRecDepth 4096

/-
Verification of audio_async_loopback: a shallow embedding of the IEC 61937
burst-extraction state machine (iec_61937.c), the IEC 60958 mode arbiter
(main.c), the PCM and AC-3 sink ring-buffer queueing steps (pcm_sink.c,
ac3_sink.c) and the shared rate-ratio control loop, together with theorems
about the spec-level claims.

Machine integers are modelled as Nat with explicit wrap-around where the C
code relies on it (uint16_t truncation, size_t subtraction, index masking).
Float samples are carried opaquely as Nat values (the code only copies them);
the double arithmetic of the control loop is modelled over exact rationals.
-/

/- ===== IEC 61937 state machine (iec_61937.c / iec_61937.h) ===== -/

inductive Iec61937State
  | FIRST_0
  | SECOND_0
  | THIRD_0
  | FOURTH_0
  | SYNC_0
  | SYNC_1
  | DATA_TYPE
  | LENGTH
  | PAYLOAD
  deriving DecidableEq, Repr

/-- Position of a state in the C enum declaration order (used for the
`state > IEC_61937_STATE_SYNC_1` lock test). -/
def iec_61937_state_index : Iec61937State → Nat
  | .FIRST_0 => 0
  | .SECOND_0 => 1
  | .THIRD_0 => 2
  | .FOURTH_0 => 3
  | .SYNC_0 => 4
  | .SYNC_1 => 5
  | .DATA_TYPE => 6
  | .LENGTH => 7
  | .PAYLOAD => 8

def IEC_61937_SYNC_WORD_0 : Nat := 0xF872

def IEC_61937_SYNC_WORD_1 : Nat := 0x4E1F

def IEC_61937_DATA_TYPE_MASK : Nat := 0x7F

def IEC_61937_DATA_TYPE_AC3 : Nat := 0x01

def IEC_61937_DATA_TYPE_EXTENDED : Nat := 0x1F

def IEC_61937_MAX_BURST_PAYLOAD : Nat := 0x10000

/-- A data burst delivered through the packet callback:
(data_type, len, payload bytes), the arguments of iec_61937_packet_cb. -/
structure Iec61937Packet where
  data_type : Nat
  len : Nat
  payload : List Nat
  deriving DecidableEq, Repr

/-- struct iec_61937_fsm.  The C payload array is written left to right
starting from index 0 after every LENGTH transition (bytes_received is the
write index), so it is modelled as the list of bytes written since the last
LENGTH transition; bytes_received always equals payload.length. -/
structure Iec61937Fsm where
  state : Iec61937State
  data_type : Nat
  payload_len : Nat
  bytes_received : Nat
  payload : List Nat
  deriving DecidableEq, Repr

/-- iec_61937_fsm_init: memset to zero, state = FIRST_0. -/
def iec_61937_fsm_init : Iec61937Fsm :=
  { state := .FIRST_0, data_type := 0, payload_len := 0, bytes_received := 0, payload := [] }

/-- __builtin_bswap16 applied to a value truncated to uint16_t. -/
def bswap16 (x : Nat) : Nat := (x % 256) * 256 + (x / 256) % 256

/-- size_t subtraction (64-bit unsigned wrap-around), for operands < 2^64. -/
def size_t_sub (a b : Nat) : Nat := (2 ^ 64 + a - b) % 2 ^ 64

/-- The switch statement of iec_61937_fsm_run, acting on the already
byte-swapped sample.  Returns the updated FSM and the packet passed to the
callback, if any. -/
def fsm_switch (inst : Iec61937Fsm) (sample : Nat) : Iec61937Fsm × Option Iec61937Packet :=
  match inst.state with
  | .FIRST_0 =>
      ({ inst with state := if sample = 0 then .SECOND_0 else .FIRST_0 }, none)
  | .SECOND_0 =>
      ({ inst with state := if sample = 0 then .THIRD_0 else .FIRST_0 }, none)
  | .THIRD_0 =>
      ({ inst with state := if sample = 0 then .FOURTH_0 else .FIRST_0 }, none)
  | .FOURTH_0 =>
      ({ inst with state := if sample = 0 then .SYNC_0 else .FIRST_0 }, none)
  | .SYNC_0 =>
      ({ inst with state :=
          if sample = 0 then .SYNC_0
          else if sample = IEC_61937_SYNC_WORD_0 then .SYNC_1
          else .FIRST_0 }, none)
  | .SYNC_1 =>
      ({ inst with state := if sample = IEC_61937_SYNC_WORD_1 then .DATA_TYPE else .FIRST_0 }, none)
  | .DATA_TYPE =>
      let dt := sample &&& IEC_61937_DATA_TYPE_MASK
      ({ inst with data_type := dt,
                   state := if dt = IEC_61937_DATA_TYPE_EXTENDED then .FIRST_0 else .LENGTH }, none)
  | .LENGTH =>
      if inst.data_type = IEC_61937_DATA_TYPE_AC3 then
        ({ inst with bytes_received := 0, payload_len := sample / 8, payload := [],
                     state := .PAYLOAD }, none)
      else
        ({ inst with state := .FIRST_0 }, none)
  | .PAYLOAD =>
      let withBytes :=
        if 2 ≤ size_t_sub inst.payload_len inst.bytes_received then
          { inst with payload := inst.payload ++ [sample / 256, sample % 256],
                      bytes_received := inst.bytes_received + 2 }
        else
          { inst with payload := inst.payload ++ [sample / 256],
                      bytes_received := inst.bytes_received + 1 }
      if withBytes.payload_len = withBytes.bytes_received then
        ({ withBytes with state := .FIRST_0 },
         some { data_type := withBytes.data_type, len := withBytes.bytes_received,
                payload := withBytes.payload })
      else
        ({ withBytes with state := .PAYLOAD }, none)

/-- iec_61937_fsm_run: byte-swap the s16le sample, run the switch, then
return true iff the updated state is beyond SYNC_1. -/
def iec_61937_fsm_run (inst : Iec61937Fsm) (s16le_sample : Nat) :
    Iec61937Fsm × Option Iec61937Packet × Bool :=
  let r := fsm_switch inst (bswap16 s16le_sample)
  (r.1, r.2, decide (iec_61937_state_index .SYNC_1 < iec_61937_state_index r.1.state))

/-- Runs the FSM over a list of s16le samples (process_chunk_iec_61937),
collecting the packets delivered to the callback in order, and the
locked flag: true iff some step returned true. -/
def iec_61937_run_stream (inst : Iec61937Fsm) :
    List Nat → Iec61937Fsm × List Iec61937Packet × Bool
  | [] => (inst, [], false)
  | s :: rest =>
      let r1 := iec_61937_fsm_run inst s
      let r2 := iec_61937_run_stream r1.1 rest
      (r2.1, r1.2.1.toList ++ r2.2.1, r1.2.2 || r2.2.2)

/- ===== Synthesized IEC 61937 AC-3 bursts (for the round-trip claim) ===== -/

/-- Packs payload bytes into 16-bit words, high byte first, two per word;
an odd final byte is carried in the high byte (the pad low byte is 0). -/
def packPayloadWords : List Nat → List Nat
  | [] => []
  | [b] => [b * 256]
  | b1 :: b2 :: rest => (b1 * 256 + b2) :: packPayloadWords rest

/-- The on-wire (big-endian) 16-bit words of one burst: four zero words,
the two sync words, the data-type word, the length word in bits, then the
packed payload. -/
def burstWords (dt_word : Nat) (payload : List Nat) : List Nat :=
  [0, 0, 0, 0, IEC_61937_SYNC_WORD_0, IEC_61937_SYNC_WORD_1, dt_word, 8 * payload.length]
    ++ packPayloadWords payload

/-- The s16le samples fed to the FSM for one burst: each on-wire word is
byte-swapped into the little-endian carrier. -/
def burstSamples (dt_word : Nat) (payload : List Nat) : List Nat :=
  (burstWords dt_word payload).map bswap16

/- ===== IEC 60958 mode arbiter (main.c) ===== -/

def IEC_61937_DETECTION_WINDOW : Nat := 64

inductive Iec60958State
  | UNKNOWN
  | PCM
  | IEC61937
  deriving DecidableEq, Repr

/-- struct iec_60958 (the sink instances are modelled by the action trace). -/
structure Iec60958 where
  state : Iec60958State
  iec_61937_fsm_inst : Iec61937Fsm
  non_61937_chunks : Nat
  deriving DecidableEq, Repr

/-- The externally visible sink operations performed by one arbiter step. -/
inductive SinkAction
  | pcm_sink_open
  | pcm_sink_close
  | ac3_sink_open
  | ac3_sink_close
  | pcm_sink_process (chunk : List Nat)
  | ac3_sink_process (pkt : Iec61937Packet)
  deriving DecidableEq, Repr

def iec_60958_init : Iec60958 :=
  { state := .UNKNOWN, iec_61937_fsm_inst := iec_61937_fsm_init, non_61937_chunks := 0 }

/-- iec_60958_process on one chunk (given as a list of s16le samples).
The packet callback forwards AC-3 packets to the AC-3 sink only while the
arbiter state (during the chunk) is IEC61937; in UNKNOWN and PCM the
callback drops them. -/
def iec_60958_process (inst : Iec60958) (chunk : List Nat) : Iec60958 × List SinkAction :=
  let r := iec_61937_run_stream inst.iec_61937_fsm_inst chunk
  match inst.state with
  | .UNKNOWN =>
      if r.2.2 then
        ({ state := .IEC61937, iec_61937_fsm_inst := r.1, non_61937_chunks := 0 },
         [.ac3_sink_open])
      else
        if IEC_61937_DETECTION_WINDOW ≤ inst.non_61937_chunks + 1 then
          ({ state := .PCM, iec_61937_fsm_inst := r.1,
             non_61937_chunks := inst.non_61937_chunks + 1 }, [.pcm_sink_open])
        else
          ({ state := .UNKNOWN, iec_61937_fsm_inst := r.1,
             non_61937_chunks := inst.non_61937_chunks + 1 }, [])
  | .PCM =>
      if r.2.2 then
        ({ state := .IEC61937, iec_61937_fsm_inst := r.1, non_61937_chunks := 0 },
         [.pcm_sink_close, .ac3_sink_open])
      else
        ({ state := .PCM, iec_61937_fsm_inst := r.1,
           non_61937_chunks := inst.non_61937_chunks }, [.pcm_sink_process chunk])
  | .IEC61937 =>
      let fwd := (r.2.1.filter fun p => p.data_type == IEC_61937_DATA_TYPE_AC3).map
        SinkAction.ac3_sink_process
      if r.2.2 then
        ({ state := .IEC61937, iec_61937_fsm_inst := r.1, non_61937_chunks := 0 }, fwd)
      else
        if IEC_61937_DETECTION_WINDOW ≤ inst.non_61937_chunks + 1 then
          ({ state := .PCM, iec_61937_fsm_inst := r.1,
             non_61937_chunks := inst.non_61937_chunks + 1 },
           fwd ++ [.ac3_sink_close, .pcm_sink_open])
        else
          ({ state := .IEC61937, iec_61937_fsm_inst := r.1,
             non_61937_chunks := inst.non_61937_chunks + 1 }, fwd)

/-- Which sinks are currently open (true = open, worker thread running). -/
structure SinkFlags where
  pcmOpen : Bool
  ac3Open : Bool
  deriving DecidableEq, Repr

def applySinkAction (f : SinkFlags) : SinkAction → SinkFlags
  | .pcm_sink_open => { f with pcmOpen := true }
  | .pcm_sink_close => { f with pcmOpen := false }
  | .ac3_sink_open => { f with ac3Open := true }
  | .ac3_sink_close => { f with ac3Open := false }
  | .pcm_sink_process _ => f
  | .ac3_sink_process _ => f

/-- The arbiter together with the open/closed status of the two sinks. -/
structure Iec60958System where
  arb : Iec60958
  flags : SinkFlags
  deriving DecidableEq, Repr

def iec_60958_system_init : Iec60958System :=
  { arb := iec_60958_init, flags := { pcmOpen := false, ac3Open := false } }

def iec_60958_system_step (s : Iec60958System) (chunk : List Nat) : Iec60958System :=
  let r := iec_60958_process s.arb chunk
  { arb := r.1, flags := r.2.foldl applySinkAction s.flags }

def iec_60958_system_run (s : Iec60958System) (chunks : List (List Nat)) : Iec60958System :=
  chunks.foldl iec_60958_system_step s

def isOpenAction : SinkAction → Bool
  | .pcm_sink_open => true
  | .ac3_sink_open => true
  | _ => false

def isCloseAction : SinkAction → Bool
  | .pcm_sink_close => true
  | .ac3_sink_close => true
  | _ => false

/-- True iff no close action occurs after an open action in the list
(close-old-then-open-new ordering). -/
def closeBeforeOpenOk : List SinkAction → Bool
  | [] => true
  | a :: rest =>
      (!(isOpenAction a) || rest.all fun b => !(isCloseAction b)) && closeBeforeOpenOk rest

/-- At most one sink open, and exactly the sink matching the arbiter mode. -/
def sinkInvariant (s : Iec60958System) : Prop :=
  (s.arb.state = .UNKNOWN → s.flags.pcmOpen = false ∧ s.flags.ac3Open = false) ∧
  (s.arb.state = .PCM → s.flags.pcmOpen = true ∧ s.flags.ac3Open = false) ∧
  (s.arb.state = .IEC61937 → s.flags.pcmOpen = false ∧ s.flags.ac3Open = true)

/- ===== PCM sink ring buffer (pcm_sink.c) ===== -/

def PCM_SINK_SAMPLE_BUFFER_SIZE : Nat := 2048

def PCM_SINK_SAMPLE_BUFFER_SIZE_MASK : Nat := PCM_SINK_SAMPLE_BUFFER_SIZE - 1

def PCM_SINK_OUTPUT_CHUNK_SIZE : Nat := 32

/-- Ring indices of struct pcm_sink.  Both indices are masked after every
increment in the C code, so they are always < 2048; fill and free space are
computed from the masked difference. -/
structure PcmRing where
  write_idx : Nat
  read_idx : Nat
  deriving DecidableEq, Repr

/-- buffer_used: (write_idx - read_idx) & MASK, with uint32 wrap-around;
for indices < 2048 this equals (2048 + w - r) % 2048. -/
def pcm_buffer_used (r : PcmRing) : Nat :=
  (PCM_SINK_SAMPLE_BUFFER_SIZE + r.write_idx - r.read_idx) % PCM_SINK_SAMPLE_BUFFER_SIZE

/-- buffer_space_avail: MASK - used. -/
def pcm_buffer_space_avail (r : PcmRing) : Nat :=
  PCM_SINK_SAMPLE_BUFFER_SIZE_MASK - pcm_buffer_used r

/-- pcm_sink_open initializes write_idx = PCM_SINK_BUFFER_TARGET_SAMPLES = 128,
read_idx = 0. -/
def pcm_sink_open_ring : PcmRing := { write_idx := 128, read_idx := 0 }

/-- The queueing step of pcm_sink_process: will_queue =
min(buffer_space_avail, output_frames_gen * 2) floats are pushed, the write
index advancing (masked) once per float. -/
def pcm_sink_process_queue (r : PcmRing) (output_frames_gen : Nat) : PcmRing :=
  let can_queue := pcm_buffer_space_avail r
  let will_queue := if can_queue < output_frames_gen * 2 then can_queue
                    else output_frames_gen * 2
  { r with write_idx := (r.write_idx + will_queue) % PCM_SINK_SAMPLE_BUFFER_SIZE }

/-- One iteration of the PCM output thread: when at least
PCM_SINK_OUTPUT_CHUNK_SIZE = 32 samples are buffered, pop exactly 32. -/
def pcm_output_thread_pop (r : PcmRing) : PcmRing :=
  if PCM_SINK_OUTPUT_CHUNK_SIZE ≤ pcm_buffer_used r then
    { r with read_idx := (r.read_idx + PCM_SINK_OUTPUT_CHUNK_SIZE) % PCM_SINK_SAMPLE_BUFFER_SIZE }
  else r

inductive PcmRingOp
  | push (output_frames_gen : Nat)
  | pop
  deriving DecidableEq, Repr

def pcm_ring_step (r : PcmRing) : PcmRingOp → PcmRing
  | .push n => pcm_sink_process_queue r n
  | .pop => pcm_output_thread_pop r

def pcm_ring_run (r : PcmRing) (ops : List PcmRingOp) : PcmRing :=
  ops.foldl pcm_ring_step r

/- ===== AC-3 sink ring buffer (ac3_sink.c) ===== -/

def AC3_SINK_SAMPLE_BUFFER_SIZE : Nat := 32768

def AC3_SINK_SAMPLE_BUFFER_SIZE_MASK : Nat := AC3_SINK_SAMPLE_BUFFER_SIZE - 1

def AC3_SINK_NUM_CHANNELS : Nat := 6

/-- Ring state of struct ac3_sink; float sample values are carried
opaquely as Nat. -/
structure Ac3Ring where
  buffer : Nat → Nat
  write_idx : Nat
  read_idx : Nat

def ac3_buffer_used (r : Ac3Ring) : Nat :=
  (AC3_SINK_SAMPLE_BUFFER_SIZE + r.write_idx - r.read_idx) % AC3_SINK_SAMPLE_BUFFER_SIZE

def ac3_buffer_space_avail (r : Ac3Ring) : Nat :=
  AC3_SINK_SAMPLE_BUFFER_SIZE_MASK - ac3_buffer_used r

/-- One buffer store of the ac3 queueing loop: write at write_idx, then
increment and mask. -/
def ac3_ring_write (r : Ac3Ring) (v : Nat) : Ac3Ring :=
  { r with buffer := Function.update r.buffer r.write_idx v,
           write_idx := (r.write_idx + 1) % AC3_SINK_SAMPLE_BUFFER_SIZE }

def ac3_ring_write_list (r : Ac3Ring) (vs : List Nat) : Ac3Ring :=
  vs.foldl ac3_ring_write r

/-- The interleaving order of the ac3_sink_process copy loop: for each
frame i, the six planar channel buffers tmp_output_buf[0..5][i] in order
FL, FR, FC, LFE, RL, RR. -/
def ac3_interleave (tmp : Nat → Nat → Nat) : Nat → List Nat
  | 0 => []
  | n + 1 =>
      ac3_interleave tmp n ++ [tmp 0 n, tmp 1 n, tmp 2 n, tmp 3 n, tmp 4 n, tmp 5 n]

/-- The queueing step of ac3_sink_process: if free space is smaller than
output_frames_gen * 6, the whole decoded frame is dropped; otherwise all
output_frames_gen frames are interleaved into the ring. -/
def ac3_sink_process_queue (r : Ac3Ring) (output_frames_gen : Nat)
    (tmp : Nat → Nat → Nat) : Ac3Ring :=
  let can_queue := ac3_buffer_space_avail r
  if can_queue < output_frames_gen * 6 then r
  else ac3_ring_write_list r (ac3_interleave tmp output_frames_gen)

/- ===== Rate-ratio control loop (calculate_rate_ratio in both sinks) ===== -/

def PCM_SINK_LOOP_GAIN : ℚ := 4 / 1000000

def PCM_SINK_BUFFER_TARGET_SAMPLES : Int := 128

def AC3_SINK_LOOP_GAIN : ℚ := 13334 / 10000000000

/-- Modelled from the spec: ac3_sink.c references AC3_SINK_BUFFER_TARGET_SAMPLES,
whose definition is not under src/ (config.h defines AC3_BUFFER_TARGET_SAMPLES);
the spec fixes the AC-3 target fill T = 384. -/
def AC3_SINK_BUFFER_TARGET_SAMPLES : Int := 384

/-- Modelled from the spec: the history of clamped offsets with its write
index.  The history size constants (PCM_SINK_BUFFER_HIST_SIZE,
AC3_SINK_BUFFER_HIST_SIZE) are not under src/; the spec leaves H as an
implementation-chosen power of two, so the history length is kept as a
parameter. -/
structure ControlState where
  history : List Int
  histidx : Nat
  deriving DecidableEq, Repr

/-- The clamp of calculate_rate_ratio: offset limited to [-target, target]. -/
def clampOffset (target offset : Int) : Int :=
  if offset < -target then -target
  else if target < offset then target
  else offset

/-- calculate_rate_ratio: clamp target - fill, store it in the history,
advance the history index (masked by H - 1 as in the C code), average the
history and return gain * average + 1 together with the new state.  The
double arithmetic is modelled over exact rationals. -/
def calculate_rate_ratio (gain : ℚ) (target : Int) (cs : ControlState) (fill : Int) :
    ℚ × ControlState :=
  let offset := clampOffset target (target - fill)
  let history1 := cs.history.set cs.histidx offset
  let accum : ℚ := (history1.sum : ℚ) / (history1.length : ℚ)
  (gain * accum + 1,
   { history := history1, histidx := (cs.histidx + 1) &&& (cs.history.length - 1) })

/-- Sink open memsets the instance, so the history starts as all zeros. -/
def control_init (hist_size : Nat) : ControlState :=
  { history := List.replicate hist_size 0, histidx := 0 }

/-- Iterates the control loop over a sequence of observed fill levels. -/
def control_run (gain : ℚ) (target : Int) (cs : ControlState) (fills : List Int) :
    ControlState :=
  fills.foldl (fun c f => ( calculate_rate_ratio gain target c f).2) cs

/-- All history entries lie in [-target, target]. -/
def historyBounded (target : Int) (cs : ControlState) : Prop :=
  ∀ x ∈ cs.history, -target ≤ x ∧ x ≤ target

/- ===== Failing input for the payload-length-zero claim ===== -/

/-- s16le sample stream whose on-wire words are a burst header with data
type AC-3 and a length field of 0 bits, followed by payload samples. -/
def c1_failing_stream : List Nat :=
  List.map bswap16 [0, 0, 0, 0, 0xF872, 0x4E1F, 0x0001, 0x0000, 0xABCD, 0x1234]

/- ===== Helper lemmas ===== -/

lemma bswap16_lt (x : Nat) : bswap16 x < 65536 := by
  unfold bswap16; omega

lemma bswap16_bswap16 {x : Nat} (h : x < 65536) : bswap16 (bswap16 x) = x := by
  unfold bswap16
  have h2 : x / 256 % 256 = x / 256 := Nat.mod_eq_of_lt (by omega)
  rw [h2]
  have h3 : (x % 256 * 256 + x / 256) % 256 = x / 256 := by omega
  have h4 : (x % 256 * 256 + x / 256) / 256 = x % 256 := by omega
  rw [h3, h4]
  omega

lemma iec_61937_fsm_run_bswap (inst : Iec61937Fsm) {w : Nat} (hw : w < 65536) :
    iec_61937_fsm_run inst (bswap16 w) =
      ((fsm_switch inst w).1, (fsm_switch inst w).2,
       decide (5 < iec_61937_state_index (fsm_switch inst w).1.state)) := by
  unfold iec_61937_fsm_run
  rw [bswap16_bswap16 hw]
  rfl

lemma iec_61937_run_stream_nil (inst : Iec61937Fsm) :
    iec_61937_run_stream inst [] = (inst, [], false) := rfl

lemma iec_61937_run_stream_cons (inst : Iec61937Fsm) (s : Nat) (rest : List Nat) :
    iec_61937_run_stream inst (s :: rest) =
      ((iec_61937_run_stream (iec_61937_fsm_run inst s).1 rest).1,
       (iec_61937_fsm_run inst s).2.1.toList ++
         (iec_61937_run_stream (iec_61937_fsm_run inst s).1 rest).2.1,
       ((iec_61937_fsm_run inst s).2.2 ||
         (iec_61937_run_stream (iec_61937_fsm_run inst s).1 rest).2.2)) := rfl

lemma iec_61937_run_stream_append (inst : Iec61937Fsm) (l1 l2 : List Nat) :
    iec_61937_run_stream inst (l1 ++ l2) =
      ((iec_61937_run_stream (iec_61937_run_stream inst l1).1 l2).1,
       (iec_61937_run_stream inst l1).2.1 ++
         (iec_61937_run_stream (iec_61937_run_stream inst l1).1 l2).2.1,
       ((iec_61937_run_stream inst l1).2.2 ||
         (iec_61937_run_stream (iec_61937_run_stream inst l1).1 l2).2.2)) := by
  induction l1 generalizing inst with
  | nil => simp [iec_61937_run_stream_nil, iec_61937_run_stream_cons]
  | cons s rest ih =>
      simp only [List.cons_append, iec_61937_run_stream_cons, ih, List.append_assoc,
        Bool.or_assoc]

/- ===== Claims C1, C2 (ring/FSM invariant violations found in the code) ===== -/

/-- C1: refutation of the claimed invariant bytes_received ≤ payload_len.
A burst header whose length field is 0 bits (payload_len = 0 / 8 = 0) puts
the FSM in PAYLOAD with payload_len = 0; the first payload sample stores a
byte and sets bytes_received = 1 > 0 = payload_len, and because the C size_t
subtraction payload_len - bytes_received then wraps, every further sample
stores two more bytes without ever firing the callback, so the payload write
index grows without bound. -/
theorem c1_bytes_received_exceeds_payload_len :
    ((iec_61937_run_stream iec_61937_fsm_init (c1_failing_stream.take 9)).1.payload_len = 0 ∧
     (iec_61937_run_stream iec_61937_fsm_init (c1_failing_stream.take 9)).1.bytes_received = 1 ∧
     ¬ ((iec_61937_run_stream iec_61937_fsm_init (c1_failing_stream.take 9)).1.bytes_received ≤
        (iec_61937_run_stream iec_61937_fsm_init (c1_failing_stream.take 9)).1.payload_len)) ∧
    ((iec_61937_run_stream iec_61937_fsm_init c1_failing_stream).1.payload_len = 0 ∧
     (iec_61937_run_stream iec_61937_fsm_init c1_failing_stream).1.bytes_received = 3 ∧
     (iec_61937_run_stream iec_61937_fsm_init c1_failing_stream).1.state = .PAYLOAD) := by
  decide

/-- C2: refutation of the claimed evenness invariant of the PCM ring
indices.  Starting from the open state (write_idx = 128, read_idx = 0),
eight producer pushes of output_frames_gen = 128 L/R frames (256 floats
each) with no consumer pop reach free space 127 < 256 on the eighth push;
the code then queues will_queue = can_queue = 127 floats — an odd count,
because free space (2047 - fill) is odd whenever both indices are even —
leaving write_idx = 2047, which is odd. -/
theorem c2_write_idx_goes_odd :
    (pcm_ring_run pcm_sink_open_ring (List.replicate 8 (PcmRingOp.push 128))).write_idx = 2047 ∧
    (pcm_ring_run pcm_sink_open_ring (List.replicate 8 (PcmRingOp.push 128))).read_idx = 0 ∧
    ¬ (2 ∣ (pcm_ring_run pcm_sink_open_ring
              (List.replicate 8 (PcmRingOp.push 128))).write_idx) := by
  decide

/- ===== Claim C4: the per-state transition table ===== -/

/-- C4: for every byte-swapped 16-bit sample s and every state among
FIRST_0 .. LENGTH, one step of the FSM switch performs exactly the spec's
transition: the four zero-counting states advance on s = 0 and reset
otherwise; SYNC_0 self-loops on 0, advances to SYNC_1 only on 0xF872;
SYNC_1 advances to DATA_TYPE only on 0x4E1F; DATA_TYPE stores s &&& 0x7F
and resets on the extended type 0x1F, else advances to LENGTH; LENGTH with
data_type 0x01 stores payload_len = s / 8, zeroes bytes_received and enters
PAYLOAD, and resets for any other data_type. -/
theorem c4_fsm_transition_table (s : Nat) (hs : s < 65536) (inst : Iec61937Fsm) :
    (inst.state = .FIRST_0 →
      fsm_switch inst s = ({ inst with state := if s = 0 then .SECOND_0 else .FIRST_0 }, none)) ∧
    (inst.state = .SECOND_0 →
      fsm_switch inst s = ({ inst with state := if s = 0 then .THIRD_0 else .FIRST_0 }, none)) ∧
    (inst.state = .THIRD_0 →
      fsm_switch inst s = ({ inst with state := if s = 0 then .FOURTH_0 else .FIRST_0 }, none)) ∧
    (inst.state = .FOURTH_0 →
      fsm_switch inst s = ({ inst with state := if s = 0 then .SYNC_0 else .FIRST_0 }, none)) ∧
    (inst.state = .SYNC_0 →
      fsm_switch inst s = ({ inst with state :=
        if s = 0 then .SYNC_0 else if s = 0xF872 then .SYNC_1 else .FIRST_0 }, none)) ∧
    (inst.state = .SYNC_1 →
      fsm_switch inst s =
        ({ inst with state := if s = 0x4E1F then .DATA_TYPE else .FIRST_0 }, none)) ∧
    (inst.state = .DATA_TYPE →
      fsm_switch inst s =
        ({ inst with
           data_type := s &&& 0x7F,
           state := if s &&& 0x7F = 0x1F then .FIRST_0 else .LENGTH }, none)) ∧
    (inst.state = .LENGTH → inst.data_type = 0x01 →
      fsm_switch inst s =
        ({ inst with
           payload_len := s / 8,
           bytes_received := 0,
           payload := [],
           state := .PAYLOAD }, none)) ∧
    (inst.state = .LENGTH → inst.data_type ≠ 0x01 →
      fsm_switch inst s = ({ inst with state := .FIRST_0 }, none)) := by
  obtain ⟨st, d, pl, br, pa⟩ := inst
  refine ⟨?_, ?_, ?_, ?_, ?_, ?_, ?_, ?_, ?_⟩
  · rintro rfl; rfl
  · rintro rfl; rfl
  · rintro rfl; rfl
  · rintro rfl; rfl
  · rintro rfl; rfl
  · rintro rfl; rfl
  · rintro rfl; rfl
  · intro h1 h2
    simp only at h1 h2
    subst h1; subst h2
    rfl
  · intro h1 h2
    simp only at h1 h2
    subst h1
    simp [fsm_switch, IEC_61937_DATA_TYPE_AC3, h2]

/-- C4 witness: the SYNC_1 row evaluated at the second sync word. -/
theorem c4_fsm_transition_table_witness :
    (0x4E1F : Nat) < 65536 ∧
    (fsm_switch { state := .SYNC_1, data_type := 0, payload_len := 0,
                  bytes_received := 0, payload := [] } 0x4E1F =
      ({ state := .DATA_TYPE, data_type := 0, payload_len := 0,
         bytes_received := 0, payload := [] }, none)) := by
  refine ⟨by decide, ?_⟩
  have h := (c4_fsm_transition_table 0x4E1F (by decide)
    { state := .SYNC_1, data_type := 0, payload_len := 0,
      bytes_received := 0, payload := [] }).2.2.2.2.2.1 rfl
  simpa using h

/- ===== Claim C5: the lock signal ===== -/

/-- C5: one step of the FSM returns true exactly when the state after
processing the sample is beyond SYNC_1, i.e. DATA_TYPE, LENGTH or PAYLOAD. -/
theorem c5_locked_iff_beyond_sync1 (inst : Iec61937Fsm) (s : Nat) :
    ((iec_61937_fsm_run inst s).2.2 = true ↔
      ((iec_61937_fsm_run inst s).1.state = .DATA_TYPE ∨
       (iec_61937_fsm_run inst s).1.state = .LENGTH ∨
       (iec_61937_fsm_run inst s).1.state = .PAYLOAD)) := by
  have h1 : (iec_61937_fsm_run inst s).1.state = (fsm_switch inst (bswap16 s)).1.state := rfl
  have h2 : (iec_61937_fsm_run inst s).2.2 =
      decide (5 < iec_61937_state_index (fsm_switch inst (bswap16 s)).1.state) := rfl
  rw [h1, h2]
  cases (fsm_switch inst (bswap16 s)).1.state <;> simp [iec_61937_state_index]

/- ===== Claim C10: payload_len is at most 8191 ===== -/

lemma payload_len_le_switch (inst : Iec61937Fsm) (sample : Nat) (hs : sample < 65536)
    (h : inst.payload_len ≤ 8191) :
    (fsm_switch inst sample).1.payload_len ≤ 8191 ∧
    ∀ pkt, (fsm_switch inst sample).2 = some pkt → pkt.len ≤ 8191 := by
  obtain ⟨st, d, pl, br, pa⟩ := inst
  simp only at h
  cases st <;> simp only [fsm_switch]
  case FIRST_0 => exact ⟨h, by simp⟩
  case SECOND_0 => exact ⟨h, by simp⟩
  case THIRD_0 => exact ⟨h, by simp⟩
  case FOURTH_0 => exact ⟨h, by simp⟩
  case SYNC_0 => exact ⟨h, by simp⟩
  case SYNC_1 => exact ⟨h, by simp⟩
  case DATA_TYPE => exact ⟨h, by simp⟩
  case LENGTH =>
    split
    · exact ⟨by simp only; omega, by simp⟩
    · exact ⟨h, by simp⟩
  case PAYLOAD =>
    refine ⟨?_, ?_⟩
    · split
      · split
        · simpa using h
        · simpa using h
      · split
        · simpa using h
        · simpa using h
    · intro pkt hp
      split at hp
      · split at hp
        · rename_i hcc
          simp only at hcc
          simp only [Option.some.injEq] at hp
          subst hp
          dsimp only
          omega
        · simp at hp
      · split at hp
        · rename_i hcc
          simp only at hcc
          simp only [Option.some.injEq] at hp
          subst hp
          dsimp only
          omega
        · simp at hp

lemma payload_len_le_stream (samples : List Nat) :
    ∀ inst : Iec61937Fsm, inst.payload_len ≤ 8191 →
      (iec_61937_run_stream inst samples).1.payload_len ≤ 8191 ∧
      ∀ pkt ∈ (iec_61937_run_stream inst samples).2.1, pkt.len ≤ 8191 := by
  induction samples with
  | nil => intro inst h; simpa [iec_61937_run_stream_nil] using h
  | cons s rest ih =>
      intro inst h
      have hstep := payload_len_le_switch inst (bswap16 s) (bswap16_lt s) h
      have hfst : (iec_61937_fsm_run inst s).1 = (fsm_switch inst (bswap16 s)).1 := rfl
      have hsnd : (iec_61937_fsm_run inst s).2.1 = (fsm_switch inst (bswap16 s)).2 := rfl
      obtain ⟨ih1, ih2⟩ := ih (iec_61937_fsm_run inst s).1 (by rw [hfst]; exact hstep.1)
      rw [iec_61937_run_stream_cons]
      refine ⟨ih1, ?_⟩
      intro pkt hp
      simp only [List.mem_append] at hp
      rcases hp with hp | hp
      · rcases Option.mem_toList.mp hp with hm
        exact hstep.2 pkt (by rw [← hsnd]; exact hm)
      · exact ih2 pkt hp

/-- C10: along every input stream, payload_len (set only as a 16-bit sample
divided by 8) stays at most 8191 — in particular it is at most 8191 whenever
the FSM is in PAYLOAD — and every packet delivered to the callback has
length at most 8191, far below the 65536-byte payload buffer. -/
theorem c10_payload_len_at_most_8191 (samples : List Nat) :
    (iec_61937_run_stream iec_61937_fsm_init samples).1.payload_len ≤ 8191 ∧
    ((iec_61937_run_stream iec_61937_fsm_init samples).1.state = .PAYLOAD →
      (iec_61937_run_stream iec_61937_fsm_init samples).1.payload_len ≤ 8191) ∧
    ∀ pkt ∈ (iec_61937_run_stream iec_61937_fsm_init samples).2.1,
      pkt.len ≤ 8191 ∧ pkt.len < IEC_61937_MAX_BURST_PAYLOAD := by
  obtain ⟨h1, h2⟩ := payload_len_le_stream samples iec_61937_fsm_init (by decide)
  refine ⟨h1, fun _ => h1, ?_⟩
  intro pkt hp
  have := h2 pkt hp
  exact ⟨this, by unfold IEC_61937_MAX_BURST_PAYLOAD; omega⟩

/-- C10 witness: the bound evaluated after one concrete burst. -/
theorem c10_payload_len_at_most_8191_witness :
    (iec_61937_run_stream iec_61937_fsm_init (burstSamples 1 [171])).1.payload_len ≤ 8191 := by
  exact (c10_payload_len_at_most_8191 (burstSamples 1 [171])).1

/- ===== Claim C3: synthesized valid AC-3 bursts round-trip ===== -/

lemma size_t_sub_of_le {a b : Nat} (hba : b ≤ a) (ha : a < 2 ^ 64) :
    size_t_sub a b = a - b := by
  unfold size_t_sub; omega

lemma payload_step_pair_continue (d n br : Nat) (pa : List Nat) (w : Nat) (hw : w < 65536)
    (hsub : 2 ≤ size_t_sub n br) (hnc : n ≠ br + 2) :
    iec_61937_fsm_run
        { state := .PAYLOAD, data_type := d, payload_len := n,
          bytes_received := br, payload := pa } (bswap16 w) =
      ({ state := .PAYLOAD, data_type := d, payload_len := n,
         bytes_received := br + 2, payload := pa ++ [w / 256, w % 256] }, none, true) := by
  rw [iec_61937_fsm_run_bswap _ hw]
  simp only [fsm_switch]
  rw [if_pos hsub]
  simp only
  rw [if_neg hnc]
  simp [iec_61937_state_index]

lemma payload_step_pair_complete (d n br : Nat) (pa : List Nat) (w : Nat) (hw : w < 65536)
    (hsub : 2 ≤ size_t_sub n br) (hc : n = br + 2) :
    iec_61937_fsm_run
        { state := .PAYLOAD, data_type := d, payload_len := n,
          bytes_received := br, payload := pa } (bswap16 w) =
      ({ state := .FIRST_0, data_type := d, payload_len := n,
         bytes_received := br + 2, payload := pa ++ [w / 256, w % 256] },
       some { data_type := d, len := br + 2, payload := pa ++ [w / 256, w % 256] },
       false) := by
  rw [iec_61937_fsm_run_bswap _ hw]
  simp only [fsm_switch]
  rw [if_pos hsub]
  simp only
  rw [if_pos hc]
  simp [iec_61937_state_index]

lemma payload_step_single_complete (d n br : Nat) (pa : List Nat) (w : Nat) (hw : w < 65536)
    (hsub : size_t_sub n br < 2) (hc : n = br + 1) :
    iec_61937_fsm_run
        { state := .PAYLOAD, data_type := d, payload_len := n,
          bytes_received := br, payload := pa } (bswap16 w) =
      ({ state := .FIRST_0, data_type := d, payload_len := n,
         bytes_received := br + 1, payload := pa ++ [w / 256] },
       some { data_type := d, len := br + 1, payload := pa ++ [w / 256] },
       false) := by
  rw [iec_61937_fsm_run_bswap _ hw]
  simp only [fsm_switch]
  rw [if_neg (show ¬ 2 ≤ size_t_sub n br from by omega)]
  simp only
  rw [if_pos hc]
  simp [iec_61937_state_index]

lemma run_payload_aux (k : Nat) :
    ∀ (rem done : List Nat) (d n : Nat),
      rem ≠ [] → rem.length ≤ k → (∀ b ∈ rem, b < 256) →
      n = done.length + rem.length → n < 2 ^ 64 →
      iec_61937_run_stream
          { state := .PAYLOAD, data_type := d, payload_len := n,
            bytes_received := done.length, payload := done }
          (List.map bswap16 (packPayloadWords rem)) =
        ({ state := .FIRST_0, data_type := d, payload_len := n,
           bytes_received := n, payload := done ++ rem },
         [{ data_type := d, len := n, payload := done ++ rem }],
         decide (2 < rem.length)) := by
  induction k with
  | zero =>
      intro rem done d n hne hlen hb hn hn64
      cases rem with
      | nil => exact absurd rfl hne
      | cons b tl => simp at hlen
  | succ k ih =>
      intro rem done d n hne hlen hb hn hn64
      rcases rem with _ | ⟨b1, rem1⟩
      · exact absurd rfl hne
      rcases rem1 with _ | ⟨b2, rest⟩
      · -- single final byte
        have hb1 : b1 < 256 := hb b1 (by simp)
        have hn1 : n = done.length + 1 := by simpa using hn
        have hw : b1 * 256 < 65536 := by omega
        have hsub : size_t_sub n done.length < 2 := by
          rw [size_t_sub_of_le (by omega) hn64]; omega
        simp only [packPayloadWords, List.map_cons, List.map_nil]
        rw [iec_61937_run_stream_cons,
          payload_step_single_complete d n done.length done (b1 * 256) hw hsub hn1,
          iec_61937_run_stream_nil]
        have hdiv : b1 * 256 / 256 = b1 := by omega
        simp [hdiv, hn1]
      · -- a full 16-bit word b1 b2, possibly more to come
        have hb1 : b1 < 256 := hb b1 (by simp)
        have hb2 : b2 < 256 := hb b2 (by simp)
        have hw : b1 * 256 + b2 < 65536 := by omega
        simp only [List.length_cons] at hn hlen
        have hsub : 2 ≤ size_t_sub n done.length := by
          rw [size_t_sub_of_le (by omega) hn64]; omega
        have hdiv : (b1 * 256 + b2) / 256 = b1 := by omega
        have hmod : (b1 * 256 + b2) % 256 = b2 := by omega
        rcases rest with _ | ⟨b3, rest2⟩
        · -- exactly two bytes left: the word completes the burst
          simp only [List.length_nil] at hn
          have hc : n = done.length + 2 := by omega
          simp only [packPayloadWords, List.map_cons, List.map_nil]
          rw [iec_61937_run_stream_cons,
            payload_step_pair_complete d n done.length done (b1 * 256 + b2) hw hsub hc,
            iec_61937_run_stream_nil]
          simp [hdiv, hmod, hc]
        · -- at least three bytes left: the word is stored and PAYLOAD continues
          simp only [List.length_cons] at hn hlen
          have hnc : n ≠ done.length + 2 := by omega
          show iec_61937_run_stream _
              (List.map bswap16 (packPayloadWords (b1 :: b2 :: b3 :: rest2))) = _
          rw [show packPayloadWords (b1 :: b2 :: b3 :: rest2) =
              (b1 * 256 + b2) :: packPayloadWords (b3 :: rest2) from rfl]
          simp only [List.map_cons]
          rw [iec_61937_run_stream_cons,
            payload_step_pair_continue d n done.length done (b1 * 256 + b2) hw hsub hnc]
          have harg : done ++ [(b1 * 256 + b2) / 256, (b1 * 256 + b2) % 256] =
              done ++ [b1, b2] := by rw [hdiv, hmod]
          rw [harg]
          have hlen2 : (done ++ [b1, b2]).length = done.length + 2 := by simp
          have ihres := ih (b3 :: rest2) (done ++ [b1, b2]) d n (by simp)
            (by simp only [List.length_cons]; omega)
            (fun b hbm => hb b (by simp [hbm]))
            (by simp only [List.length_cons, List.length_append]; simp; omega) hn64
          rw [hlen2] at ihres
          rw [ihres]
          have hlocked : decide (2 < (b1 :: b2 :: b3 :: rest2 : List Nat).length) = true := by
            simp
          rw [hlocked]
          simp

lemma run_header (d0 pl0 br0 : Nat) (pa0 : List Nat) (dt n : Nat)
    (hdt : dt < 65536) (hdt1 : dt &&& 127 = 1) (hn : n ≤ 8191) :
    iec_61937_run_stream
        { state := .FIRST_0, data_type := d0, payload_len := pl0,
          bytes_received := br0, payload := pa0 }
        (List.map bswap16 [0, 0, 0, 0, 0xF872, 0x4E1F, dt, 8 * n]) =
      ({ state := .PAYLOAD, data_type := 1, payload_len := n,
         bytes_received := 0, payload := [] }, [], true) := by
  have e1 : iec_61937_fsm_run
      { state := .FIRST_0, data_type := d0, payload_len := pl0,
        bytes_received := br0, payload := pa0 } (bswap16 0) =
      ({ state := .SECOND_0, data_type := d0, payload_len := pl0,
         bytes_received := br0, payload := pa0 }, none, false) := rfl
  have e2 : iec_61937_fsm_run
      { state := .SECOND_0, data_type := d0, payload_len := pl0,
        bytes_received := br0, payload := pa0 } (bswap16 0) =
      ({ state := .THIRD_0, data_type := d0, payload_len := pl0,
         bytes_received := br0, payload := pa0 }, none, false) := rfl
  have e3 : iec_61937_fsm_run
      { state := .THIRD_0, data_type := d0, payload_len := pl0,
        bytes_received := br0, payload := pa0 } (bswap16 0) =
      ({ state := .FOURTH_0, data_type := d0, payload_len := pl0,
         bytes_received := br0, payload := pa0 }, none, false) := rfl
  have e4 : iec_61937_fsm_run
      { state := .FOURTH_0, data_type := d0, payload_len := pl0,
        bytes_received := br0, payload := pa0 } (bswap16 0) =
      ({ state := .SYNC_0, data_type := d0, payload_len := pl0,
         bytes_received := br0, payload := pa0 }, none, false) := rfl
  have e5 : iec_61937_fsm_run
      { state := .SYNC_0, data_type := d0, payload_len := pl0,
        bytes_received := br0, payload := pa0 } (bswap16 0xF872) =
      ({ state := .SYNC_1, data_type := d0, payload_len := pl0,
         bytes_received := br0, payload := pa0 }, none, false) := by
    rw [iec_61937_fsm_run_bswap _ (by norm_num)]
    rfl
  have e6 : iec_61937_fsm_run
      { state := .SYNC_1, data_type := d0, payload_len := pl0,
        bytes_received := br0, payload := pa0 } (bswap16 0x4E1F) =
      ({ state := .DATA_TYPE, data_type := d0, payload_len := pl0,
         bytes_received := br0, payload := pa0 }, none, true) := by
    rw [iec_61937_fsm_run_bswap _ (by norm_num)]
    rfl
  have e7 : iec_61937_fsm_run
      { state := .DATA_TYPE, data_type := d0, payload_len := pl0,
        bytes_received := br0, payload := pa0 } (bswap16 dt) =
      ({ state := .LENGTH, data_type := 1, payload_len := pl0,
         bytes_received := br0, payload := pa0 }, none, true) := by
    rw [iec_61937_fsm_run_bswap _ hdt]
    simp [fsm_switch, IEC_61937_DATA_TYPE_MASK, IEC_61937_DATA_TYPE_EXTENDED, hdt1,
      iec_61937_state_index]
  have h8n : 8 * n < 65536 := by omega
  have hdiv8 : 8 * n / 8 = n := by omega
  have e8 : iec_61937_fsm_run
      { state := .LENGTH, data_type := 1, payload_len := pl0,
        bytes_received := br0, payload := pa0 } (bswap16 (8 * n)) =
      ({ state := .PAYLOAD, data_type := 1, payload_len := n,
         bytes_received := 0, payload := [] }, none, true) := by
    rw [iec_61937_fsm_run_bswap _ h8n]
    simp [fsm_switch, IEC_61937_DATA_TYPE_AC3, hdiv8, iec_61937_state_index]
  simp only [List.map_cons, List.map_nil]
  rw [iec_61937_run_stream_cons, e1]
  rw [iec_61937_run_stream_cons, e2]
  rw [iec_61937_run_stream_cons, e3]
  rw [iec_61937_run_stream_cons, e4]
  rw [iec_61937_run_stream_cons, e5]
  rw [iec_61937_run_stream_cons, e6]
  rw [iec_61937_run_stream_cons, e7]
  rw [iec_61937_run_stream_cons, e8]
  rw [iec_61937_run_stream_nil]
  simp

/-- One synthesized burst, started from any FSM whose state is FIRST_0,
delivers exactly one packet carrying the original payload and returns the
FSM to FIRST_0. -/
lemma run_burst (d0 pl0 br0 : Nat) (pa0 : List Nat) (dt : Nat) (payload : List Nat)
    (hdt : dt < 65536) (hdt1 : dt &&& 127 = 1) (hne : payload ≠ [])
    (hlen : payload.length ≤ 8191) (hb : ∀ b ∈ payload, b < 256) :
    iec_61937_run_stream
        { state := .FIRST_0, data_type := d0, payload_len := pl0,
          bytes_received := br0, payload := pa0 }
        (burstSamples dt payload) =
      ({ state := .FIRST_0, data_type := 1, payload_len := payload.length,
         bytes_received := payload.length, payload := payload },
       [{ data_type := 1, len := payload.length, payload := payload }], true) := by
  unfold burstSamples burstWords
  rw [IEC_61937_SYNC_WORD_0, IEC_61937_SYNC_WORD_1]
  rw [show ([0, 0, 0, 0, 0xF872, 0x4E1F, dt, 8 * payload.length] ++
      packPayloadWords payload : List Nat).map bswap16 =
      (List.map bswap16 [0, 0, 0, 0, 0xF872, 0x4E1F, dt, 8 * payload.length]) ++
      (List.map bswap16 (packPayloadWords payload)) from List.map_append _ _ _]
  rw [iec_61937_run_stream_append]
  rw [run_header d0 pl0 br0 pa0 dt payload.length hdt hdt1 hlen]
  have hpay := run_payload_aux payload.length payload [] 1 payload.length hne le_rfl hb
    (by simp) (by omega)
  simp only [List.length_nil, List.nil_append, Nat.zero_add] at hpay
  rw [hpay]
  simp

lemma run_bursts :
    ∀ bs : List (Nat × List Nat),
      (∀ p ∈ bs, p.1 < 65536 ∧ p.1 &&& 127 = 1 ∧ p.2 ≠ [] ∧ p.2.length ≤ 8191 ∧
        ∀ b ∈ p.2, b < 256) →
      ∀ (d0 pl0 br0 : Nat) (pa0 : List Nat),
        (iec_61937_run_stream
            { state := .FIRST_0, data_type := d0, payload_len := pl0,
              bytes_received := br0, payload := pa0 }
            ((bs.map fun p => burstSamples p.1 p.2).flatten)).1.state = .FIRST_0 ∧
        (iec_61937_run_stream
            { state := .FIRST_0, data_type := d0, payload_len := pl0,
              bytes_received := br0, payload := pa0 }
            ((bs.map fun p => burstSamples p.1 p.2).flatten)).2.1 =
          bs.map fun p => { data_type := 1, len := p.2.length, payload := p.2 } := by
  intro bs
  induction bs with
  | nil =>
      intro _ d0 pl0 br0 pa0
      simp [iec_61937_run_stream_nil]
  | cons hd tl ih =>
      intro h d0 pl0 br0 pa0
      obtain ⟨dt, pay⟩ := hd
      obtain ⟨h1, h2, h3, h4, h5⟩ := h (dt, pay) (by simp)
      simp only [List.map_cons, List.flatten_cons]
      rw [iec_61937_run_stream_append]
      rw [run_burst d0 pl0 br0 pa0 dt pay h1 h2 h3 h4 h5]
      have ihres := ih (fun p hp => h p (by simp [hp])) 1 pay.length pay.length pay
      refine ⟨ihres.1, ?_⟩
      rw [ihres.2]
      simp

/-- C3: a stream that is the concatenation of N synthesized valid AC-3
bursts (four zero words, syncs 0xF872 and 0x4E1F, a data-type word whose
low 7 bits are 0x01, a length word equal to the payload length in bits,
then the payload bytes packed high byte first) makes the FSM deliver
exactly N callbacks, in stream order, each with data_type = 1 and exactly
the original payload bytes, and leaves the FSM in state FIRST_0. -/
theorem c3_valid_bursts_round_trip (bs : List (Nat × List Nat))
    (h : ∀ p ∈ bs, p.1 < 65536 ∧ p.1 &&& 127 = 1 ∧ p.2 ≠ [] ∧ p.2.length ≤ 8191 ∧
      ∀ b ∈ p.2, b < 256) :
    (iec_61937_run_stream iec_61937_fsm_init
        ((bs.map fun p => burstSamples p.1 p.2).flatten)).1.state = .FIRST_0 ∧
    (iec_61937_run_stream iec_61937_fsm_init
        ((bs.map fun p => burstSamples p.1 p.2).flatten)).2.1 =
      bs.map fun p => { data_type := 1, len := p.2.length, payload := p.2 } :=
  run_bursts bs h 0 0 0 []

/-- C3 witness: two concrete bursts (an odd-length payload with data-type
word 0x0001 and a three-byte payload with data-type word 0x0081). -/
theorem c3_valid_bursts_round_trip_witness :
    (∀ p ∈ ([(1, [171]), (129, [222, 173, 190])] : List (Nat × List Nat)),
      p.1 < 65536 ∧ p.1 &&& 127 = 1 ∧ p.2 ≠ [] ∧ p.2.length ≤ 8191 ∧
      ∀ b ∈ p.2, b < 256) ∧
    (iec_61937_run_stream iec_61937_fsm_init
        ((([(1, [171]), (129, [222, 173, 190])] : List (Nat × List Nat)).map
          fun p => burstSamples p.1 p.2).flatten)).2.1 =
      [{ data_type := 1, len := 1, payload := [171] },
       { data_type := 1, len := 3, payload := [222, 173, 190] }] := by
  constructor
  · decide
  · have h := c3_valid_bursts_round_trip [(1, [171]), (129, [222, 173, 190])] (by decide)
    rw [h.2]
    rfl

/- ===== Claim C6: the mode arbiter per-chunk transitions ===== -/

/-- C6: one arbiter step behaves exactly as the spec's per-mode rules,
where locked means some FSM step within the chunk returned true: UNKNOWN
goes to IEC61937 opening the AC-3 sink on lock, otherwise counts up to the
64-chunk window and then opens the PCM sink; PCM on lock closes the PCM
sink (forwarding none of that chunk to it) and opens the AC-3 sink, else
forwards the chunk to the PCM sink; IEC61937 on lock resets the counter,
else counts up to the window and then closes the AC-3 sink and opens the
PCM sink. -/
theorem c6_arbiter_transitions (inst : Iec60958) (chunk : List Nat) :
    (inst.state = .UNKNOWN →
      (iec_61937_run_stream inst.iec_61937_fsm_inst chunk).2.2 = true →
      iec_60958_process inst chunk =
        ({ state := .IEC61937,
           iec_61937_fsm_inst := (iec_61937_run_stream inst.iec_61937_fsm_inst chunk).1,
           non_61937_chunks := 0 }, [.ac3_sink_open])) ∧
    (inst.state = .UNKNOWN →
      (iec_61937_run_stream inst.iec_61937_fsm_inst chunk).2.2 = false →
      inst.non_61937_chunks + 1 < 64 →
      iec_60958_process inst chunk =
        ({ state := .UNKNOWN,
           iec_61937_fsm_inst := (iec_61937_run_stream inst.iec_61937_fsm_inst chunk).1,
           non_61937_chunks := inst.non_61937_chunks + 1 }, [])) ∧
    (inst.state = .UNKNOWN →
      (iec_61937_run_stream inst.iec_61937_fsm_inst chunk).2.2 = false →
      64 ≤ inst.non_61937_chunks + 1 →
      iec_60958_process inst chunk =
        ({ state := .PCM,
           iec_61937_fsm_inst := (iec_61937_run_stream inst.iec_61937_fsm_inst chunk).1,
           non_61937_chunks := inst.non_61937_chunks + 1 }, [.pcm_sink_open])) ∧
    (inst.state = .PCM →
      (iec_61937_run_stream inst.iec_61937_fsm_inst chunk).2.2 = true →
      iec_60958_process inst chunk =
        ({ state := .IEC61937,
           iec_61937_fsm_inst := (iec_61937_run_stream inst.iec_61937_fsm_inst chunk).1,
           non_61937_chunks := 0 }, [.pcm_sink_close, .ac3_sink_open])) ∧
    (inst.state = .PCM →
      (iec_61937_run_stream inst.iec_61937_fsm_inst chunk).2.2 = false →
      iec_60958_process inst chunk =
        ({ state := .PCM,
           iec_61937_fsm_inst := (iec_61937_run_stream inst.iec_61937_fsm_inst chunk).1,
           non_61937_chunks := inst.non_61937_chunks }, [.pcm_sink_process chunk])) ∧
    (inst.state = .IEC61937 →
      (iec_61937_run_stream inst.iec_61937_fsm_inst chunk).2.2 = true →
      iec_60958_process inst chunk =
        ({ state := .IEC61937,
           iec_61937_fsm_inst := (iec_61937_run_stream inst.iec_61937_fsm_inst chunk).1,
           non_61937_chunks := 0 },
         ((iec_61937_run_stream inst.iec_61937_fsm_inst chunk).2.1.filter
            fun p => p.data_type == IEC_61937_DATA_TYPE_AC3).map
           SinkAction.ac3_sink_process)) ∧
    (inst.state = .IEC61937 →
      (iec_61937_run_stream inst.iec_61937_fsm_inst chunk).2.2 = false →
      inst.non_61937_chunks + 1 < 64 →
      iec_60958_process inst chunk =
        ({ state := .IEC61937,
           iec_61937_fsm_inst := (iec_61937_run_stream inst.iec_61937_fsm_inst chunk).1,
           non_61937_chunks := inst.non_61937_chunks + 1 },
         ((iec_61937_run_stream inst.iec_61937_fsm_inst chunk).2.1.filter
            fun p => p.data_type == IEC_61937_DATA_TYPE_AC3).map
           SinkAction.ac3_sink_process)) ∧
    (inst.state = .IEC61937 →
      (iec_61937_run_stream inst.iec_61937_fsm_inst chunk).2.2 = false →
      64 ≤ inst.non_61937_chunks + 1 →
      iec_60958_process inst chunk =
        ({ state := .PCM,
           iec_61937_fsm_inst := (iec_61937_run_stream inst.iec_61937_fsm_inst chunk).1,
           non_61937_chunks := inst.non_61937_chunks + 1 },
         (((iec_61937_run_stream inst.iec_61937_fsm_inst chunk).2.1.filter
             fun p => p.data_type == IEC_61937_DATA_TYPE_AC3).map
            SinkAction.ac3_sink_process) ++ [.ac3_sink_close, .pcm_sink_open])) := by
  obtain ⟨st, fsm, n⟩ := inst
  refine ⟨?_, ?_, ?_, ?_, ?_, ?_, ?_, ?_⟩
  · intro h hl
    subst h
    simp [iec_60958_process, hl]
  · intro h hl hlt
    subst h
    simp only at hl hlt
    simp only [iec_60958_process, hl]
    rw [if_neg (show ¬ IEC_61937_DETECTION_WINDOW ≤ n + 1 from by
      unfold IEC_61937_DETECTION_WINDOW; omega)]
    simp
  · intro h hl hge
    subst h
    simp only at hl hge
    simp only [iec_60958_process, hl]
    rw [if_pos (show IEC_61937_DETECTION_WINDOW ≤ n + 1 from by
      unfold IEC_61937_DETECTION_WINDOW; omega)]
    simp
  · intro h hl
    subst h
    simp [iec_60958_process, hl]
  · intro h hl
    subst h
    simp [iec_60958_process, hl]
  · intro h hl
    subst h
    simp [iec_60958_process, hl]
  · intro h hl hlt
    subst h
    simp only at hl hlt
    simp only [iec_60958_process, hl]
    rw [if_neg (show ¬ IEC_61937_DETECTION_WINDOW ≤ n + 1 from by
      unfold IEC_61937_DETECTION_WINDOW; omega)]
    simp
  · intro h hl hge
    subst h
    simp only at hl hge
    simp only [iec_60958_process, hl]
    rw [if_pos (show IEC_61937_DETECTION_WINDOW ≤ n + 1 from by
      unfold IEC_61937_DETECTION_WINDOW; omega)]
    simp

/-- C6 witness: one non-locked chunk in state UNKNOWN with counter 0. -/
theorem c6_arbiter_transitions_witness :
    iec_60958_process iec_60958_init [] =
      ({ state := .UNKNOWN, iec_61937_fsm_inst := iec_61937_fsm_init,
         non_61937_chunks := 1 }, []) := by
  have h := (c6_arbiter_transitions iec_60958_init []).2.1 rfl rfl (by decide)
  simpa using h

/- ===== Claim C7: at most one sink open, close-before-open ===== -/

lemma foldl_apply_fwd (pkts : List Iec61937Packet) (f : SinkFlags) :
    (pkts.map SinkAction.ac3_sink_process).foldl applySinkAction f = f := by
  induction pkts generalizing f with
  | nil => rfl
  | cons p ps ih => simp [applySinkAction, ih]

lemma closeBeforeOpenOk_fwd_append (pkts : List Iec61937Packet) (l : List SinkAction)
    (hl : closeBeforeOpenOk l = true) :
    closeBeforeOpenOk (pkts.map SinkAction.ac3_sink_process ++ l) = true := by
  induction pkts with
  | nil => simpa using hl
  | cons p ps ih => simpa [closeBeforeOpenOk, isOpenAction] using ih

lemma closeBeforeOpenOk_step (inst : Iec60958) (chunk : List Nat) :
    closeBeforeOpenOk (iec_60958_process inst chunk).2 = true := by
  obtain ⟨st, fsm, n⟩ := inst
  cases st
  case UNKNOWN =>
    simp only [iec_60958_process]
    split
    · rfl
    · split
      · rfl
      · rfl
  case PCM =>
    simp only [iec_60958_process]
    split
    · rfl
    · simp [closeBeforeOpenOk, isOpenAction, isCloseAction]
  case IEC61937 =>
    simp only [iec_60958_process]
    split
    · simpa using closeBeforeOpenOk_fwd_append _ [] (by decide)
    · split
      · exact closeBeforeOpenOk_fwd_append _ _ (by decide)
      · simpa using closeBeforeOpenOk_fwd_append _ [] (by decide)

lemma sinkInvariant_step (s : Iec60958System) (chunk : List Nat)
    (h : sinkInvariant s) : sinkInvariant (iec_60958_system_step s chunk) := by
  obtain ⟨⟨st, fsm, n⟩, ⟨po, ao⟩⟩ := s
  obtain ⟨hU, hP, hI⟩ := h
  unfold iec_60958_system_step
  cases st
  case UNKNOWN =>
    obtain ⟨hpo, hao⟩ := hU rfl
    simp only at hpo hao
    subst hpo; subst hao
    simp only [iec_60958_process]
    split
    · simp [sinkInvariant, applySinkAction]
    · split
      · simp [sinkInvariant, applySinkAction]
      · simp [sinkInvariant, applySinkAction]
  case PCM =>
    obtain ⟨hpo, hao⟩ := hP rfl
    simp only at hpo hao
    subst hpo; subst hao
    simp only [iec_60958_process]
    split
    · simp [sinkInvariant, applySinkAction]
    · simp [sinkInvariant, applySinkAction]
  case IEC61937 =>
    obtain ⟨hpo, hao⟩ := hI rfl
    simp only at hpo hao
    subst hpo; subst hao
    simp only [iec_60958_process]
    split
    · simp [sinkInvariant, foldl_apply_fwd]
    · split
      · simp [sinkInvariant, List.foldl_append, foldl_apply_fwd, applySinkAction]
      · simp [sinkInvariant, foldl_apply_fwd]

lemma sinkInvariant_run (chunks : List (List Nat)) :
    ∀ s : Iec60958System, sinkInvariant s →
      sinkInvariant (iec_60958_system_run s chunks) := by
  induction chunks with
  | nil => intro s h; exact h
  | cons c cs ih =>
      intro s h
      exact ih (iec_60958_system_step s c) (sinkInvariant_step s c h)

/-- C7: from the initial state (UNKNOWN, both sinks closed), after any
sequence of chunks at most one sink is open: none in UNKNOWN, exactly the
PCM sink in state PCM, exactly the AC-3 sink in state IEC61937; and every
step's action list closes the previously open sink before opening the new
one (no close action ever follows an open action). -/
theorem c7_at_most_one_sink_open (chunks : List (List Nat)) :
    ¬ ((iec_60958_system_run iec_60958_system_init chunks).flags.pcmOpen = true ∧
       (iec_60958_system_run iec_60958_system_init chunks).flags.ac3Open = true) ∧
    sinkInvariant (iec_60958_system_run iec_60958_system_init chunks) ∧
    ∀ chunk : List Nat,
      closeBeforeOpenOk
        (iec_60958_process (iec_60958_system_run iec_60958_system_init chunks).arb chunk).2 =
      true := by
  have hinv : sinkInvariant (iec_60958_system_run iec_60958_system_init chunks) :=
    sinkInvariant_run chunks iec_60958_system_init (by
      refine ⟨fun _ => ⟨rfl, rfl⟩, fun hc => ?_, fun hc => ?_⟩ <;>
        simp [iec_60958_system_init, iec_60958_init] at hc)
  refine ⟨?_, hinv, fun chunk => closeBeforeOpenOk_step _ chunk⟩
  obtain ⟨hU, hP, hI⟩ := hinv
  intro hc
  cases hst : (iec_60958_system_run iec_60958_system_init chunks).arb.state
  · have := hU hst; simp_all
  · have := hP hst; simp_all
  · have := hI hst; simp_all

/-- C7 witness: after 64 silent chunks the PCM sink alone is open. -/
theorem c7_at_most_one_sink_open_witness :
    ¬ ((iec_60958_system_run iec_60958_system_init
          (List.replicate 64 ([0, 0] : List Nat))).flags.pcmOpen = true ∧
       (iec_60958_system_run iec_60958_system_init
          (List.replicate 64 ([0, 0] : List Nat))).flags.ac3Open = true) :=
  (c7_at_most_one_sink_open (List.replicate 64 [0, 0])).1

/- ===== Claim C8: AC-3 frame queueing — all-or-nothing, channel order ===== -/

lemma ac3_ring_write_fields (r : Ac3Ring) (v : Nat) :
    (ac3_ring_write r v).buffer = Function.update r.buffer r.write_idx v ∧
    (ac3_ring_write r v).write_idx = (r.write_idx + 1) % 32768 ∧
    (ac3_ring_write r v).read_idx = r.read_idx :=
  ⟨rfl, rfl, rfl⟩

lemma ac3_ring_write_list_spec :
    ∀ (vs : List Nat) (r : Ac3Ring),
      r.write_idx < 32768 → vs.length ≤ 32768 →
      (ac3_ring_write_list r vs).read_idx = r.read_idx ∧
      (ac3_ring_write_list r vs).write_idx = (r.write_idx + vs.length) % 32768 ∧
      (∀ k, k < vs.length →
        (ac3_ring_write_list r vs).buffer ((r.write_idx + k) % 32768) = vs.getD k 0) ∧
      (∀ p, (∀ k, k < vs.length → p ≠ (r.write_idx + k) % 32768) →
        (ac3_ring_write_list r vs).buffer p = r.buffer p) := by
  intro vs
  induction vs with
  | nil =>
      intro r hw hlen
      refine ⟨rfl, ?_, ?_, fun p _ => rfl⟩
      · show r.write_idx = (r.write_idx + ([] : List Nat).length) % 32768
        simp only [List.length_nil]
        omega
      · intro k hk
        simp at hk
  | cons v tl ih =>
      intro r hw hlen
      simp only [List.length_cons] at hlen
      obtain ⟨hb1, hw1, hr1⟩ := ac3_ring_write_fields r v
      have hw1lt : (ac3_ring_write r v).write_idx < 32768 := by rw [hw1]; omega
      obtain ⟨ihr, ihw, ihc, ihu⟩ := ih (ac3_ring_write r v) hw1lt (by omega)
      have hwl : ac3_ring_write_list r (v :: tl) = ac3_ring_write_list (ac3_ring_write r v) tl :=
        rfl
      rw [hwl]
      refine ⟨by rw [ihr, hr1], ?_, ?_, ?_⟩
      · rw [ihw, hw1]
        simp only [List.length_cons]
        omega
      · intro k hk
        cases k with
        | zero =>
            have hpos : (r.write_idx + 0) % 32768 = r.write_idx := by omega
            rw [hpos]
            have hne : ∀ j, j < tl.length → r.write_idx ≠ ((ac3_ring_write r v).write_idx + j) % 32768 := by
              intro j hj
              rw [hw1]
              omega
            rw [ihu r.write_idx hne, hb1]
            simp
        | succ k1 =>
            simp only [List.length_cons] at hk
            have hk1 : k1 < tl.length := by omega
            have hpos : (r.write_idx + (k1 + 1)) % 32768 =
                ((ac3_ring_write r v).write_idx + k1) % 32768 := by
              rw [hw1]; omega
            rw [hpos, ihc k1 hk1]
            simp
      · intro p hp
        have hne : ∀ j, j < tl.length → p ≠ ((ac3_ring_write r v).write_idx + j) % 32768 := by
          intro j hj
          have hj1 := hp (j + 1) (by simp only [List.length_cons]; omega)
          rw [hw1]
          intro he
          apply hj1
          rw [he]
          omega
        rw [ihu p hne, hb1]
        have hpw : p ≠ r.write_idx := by
          have h0 := hp 0 (by simp only [List.length_cons]; omega)
          intro he
          apply h0
          rw [he]
          omega
        exact Function.update_noteq hpw v r.buffer

lemma ac3_interleave_length (tmp : Nat → Nat → Nat) (n : Nat) :
    (ac3_interleave tmp n).length = n * 6 := by
  induction n with
  | zero => rfl
  | succ m ih => simp [ac3_interleave, ih]; omega

lemma ac3_interleave_getD (tmp : Nat → Nat → Nat) (n i c : Nat) (hi : i < n) (hc : c < 6) :
    (ac3_interleave tmp n).getD (6 * i + c) 0 = tmp c i := by
  induction n with
  | zero => omega
  | succ m ih =>
      by_cases h : i < m
      · rw [ac3_interleave, List.getD_append]
        · exact ih h
        · rw [ac3_interleave_length]; omega
      · have him : i = m := by omega
        subst him
        rw [ac3_interleave, List.getD_append_right]
        · rw [ac3_interleave_length]
          interval_cases c <;> simp [Nat.mul_comm]
        · rw [ac3_interleave_length]; omega

/-- C8: one AC-3 producer queueing step with decoder output
output_frames_gen frames is all-or-nothing: when free space is smaller
than output_frames_gen * 6 the whole frame is dropped and the ring (both
indices and the buffer) is unchanged; otherwise exactly
output_frames_gen * 6 floats are queued, frame i placing channels
FL, FR, FC, LFE, RL, RR (tmp 0 i .. tmp 5 i) at consecutive masked
positions write_idx + 6 * i + c. -/
theorem c8_ac3_drop_whole_frame_or_queue_all (r : Ac3Ring) (output_frames_gen : Nat)
    (tmp : Nat → Nat → Nat) (hw : r.write_idx < 32768) :
    (ac3_buffer_space_avail r < output_frames_gen * 6 →
      ac3_sink_process_queue r output_frames_gen tmp = r) ∧
    (output_frames_gen * 6 ≤ ac3_buffer_space_avail r →
      (ac3_sink_process_queue r output_frames_gen tmp).read_idx = r.read_idx ∧
      (ac3_sink_process_queue r output_frames_gen tmp).write_idx =
        (r.write_idx + output_frames_gen * 6) % 32768 ∧
      (∀ i, i < output_frames_gen → ∀ c, c < 6 →
        (ac3_sink_process_queue r output_frames_gen tmp).buffer
            ((r.write_idx + (6 * i + c)) % 32768) = tmp c i) ∧
      (∀ p, (∀ k, k < output_frames_gen * 6 → p ≠ (r.write_idx + k) % 32768) →
        (ac3_sink_process_queue r output_frames_gen tmp).buffer p = r.buffer p)) := by
  constructor
  · intro hlt
    unfold ac3_sink_process_queue
    rw [if_pos hlt]
  · intro hge
    have havail : ac3_buffer_space_avail r ≤ 32767 := by
      unfold ac3_buffer_space_avail AC3_SINK_SAMPLE_BUFFER_SIZE_MASK AC3_SINK_SAMPLE_BUFFER_SIZE
      omega
    have hlen : (ac3_interleave tmp output_frames_gen).length ≤ 32768 := by
      rw [ac3_interleave_length]; omega
    have heq : ac3_sink_process_queue r output_frames_gen tmp =
        ac3_ring_write_list r (ac3_interleave tmp output_frames_gen) := by
      unfold ac3_sink_process_queue
      rw [if_neg (by omega)]
    obtain ⟨h1, h2, h3, h4⟩ := ac3_ring_write_list_spec (ac3_interleave tmp output_frames_gen)
      r hw hlen
    rw [heq]
    refine ⟨h1, ?_, ?_, ?_⟩
    · rw [h2, ac3_interleave_length]
    · intro i hi c hc
      have hk : 6 * i + c < (ac3_interleave tmp output_frames_gen).length := by
        rw [ac3_interleave_length]; omega
      rw [h3 (6 * i + c) hk, ac3_interleave_getD tmp output_frames_gen i c hi hc]
    · intro p hp
      refine h4 p ?_
      intro k hk
      exact hp k (by rw [ac3_interleave_length] at hk; omega)

/-- C8 witness: one frame queued into a ring with default fill. -/
theorem c8_ac3_drop_whole_frame_or_queue_all_witness :
    (1 * 6 ≤ ac3_buffer_space_avail { buffer := fun _ => 0, write_idx := 384, read_idx := 0 }) ∧
    ((ac3_sink_process_queue { buffer := fun _ => 0, write_idx := 384, read_idx := 0 } 1
        (fun c i => 100 * c + i + 7)).write_idx = (384 + 1 * 6) % 32768) := by
  refine ⟨by decide, ?_⟩
  exact ((c8_ac3_drop_whole_frame_or_queue_all
    { buffer := fun _ => 0, write_idx := 384, read_idx := 0 } 1
    (fun c i => 100 * c + i + 7) (by decide)).2 (by decide)).2.1

/- ===== Claim C9: control-loop ratio bounds ===== -/

lemma clampOffset_bounds (t off : Int) (ht : 0 ≤ t) :
    -t ≤ clampOffset t off ∧ clampOffset t off ≤ t := by
  unfold clampOffset
  split_ifs <;> omega

lemma list_sum_bounds (t : Int) :
    ∀ l : List Int, (∀ x ∈ l, -t ≤ x ∧ x ≤ t) →
      -(t * l.length) ≤ l.sum ∧ l.sum ≤ t * l.length := by
  intro l
  induction l with
  | nil => simp
  | cons a tl ih =>
      intro h
      obtain ⟨ha1, ha2⟩ := h a (by simp)
      obtain ⟨ih1, ih2⟩ := ih (fun x hx => h x (by simp [hx]))
      simp only [List.sum_cons, List.length_cons]
      push_cast
      constructor <;> linarith

lemma rate_ratio_bound (gain : ℚ) (target : Int) (hg : 0 ≤ gain) (ht : 0 ≤ target)
    (cs : ControlState) (fill : Int) (hne : cs.history ≠ [])
    (hb : historyBounded target cs) :
    1 - gain * (target : ℚ) ≤ ( calculate_rate_ratio gain target cs fill).1 ∧
    ( calculate_rate_ratio gain target cs fill).1 ≤ 1 + gain * (target : ℚ) := by
  have hlen : 0 < cs.history.length := List.length_pos.mpr hne
  set hist1 := cs.history.set cs.histidx (clampOffset target (target - fill)) with hh1
  have hb1 : ∀ x ∈ hist1, -target ≤ x ∧ x ≤ target := by
    intro x hx
    rcases List.mem_or_eq_of_mem_set hx with hx1 | hx1
    · exact hb x hx1
    · subst hx1
      exact clampOffset_bounds target _ ht
  have hlen1 : hist1.length = cs.history.length := List.length_set cs.history _ _
  obtain ⟨hs1, hs2⟩ := list_sum_bounds target hist1 hb1
  have hratio : ( calculate_rate_ratio gain target cs fill).1 =
      gain * ((hist1.sum : ℚ) / (hist1.length : ℚ)) + 1 := rfl
  rw [hratio]
  have hlenq : (0 : ℚ) < (hist1.length : ℚ) := by
    rw [hlen1]
    exact_mod_cast hlen
  have haccum_le : (hist1.sum : ℚ) / (hist1.length : ℚ) ≤ (target : ℚ) := by
    rw [div_le_iff₀ hlenq]
    have hc : ((hist1.sum : Int) : ℚ) ≤ ((target * (hist1.length : Int) : Int) : ℚ) :=
      Int.cast_le.mpr hs2
    rw [Int.cast_mul, Int.cast_natCast] at hc
    exact hc
  have haccum_ge : -(target : ℚ) ≤ (hist1.sum : ℚ) / (hist1.length : ℚ) := by
    rw [le_div_iff₀ hlenq]
    have hc : ((-(target * (hist1.length : Int)) : Int) : ℚ) ≤ ((hist1.sum : Int) : ℚ) :=
      Int.cast_le.mpr hs1
    rw [Int.cast_neg, Int.cast_mul, Int.cast_natCast] at hc
    linarith
  constructor
  · have hm := mul_le_mul_of_nonneg_left haccum_ge hg
    rw [mul_neg] at hm
    linarith
  · have hm := mul_le_mul_of_nonneg_left haccum_le hg
    linarith

lemma historyBounded_step (gain : ℚ) (target : Int) (ht : 0 ≤ target) (cs : ControlState)
    (fill : Int) (hb : historyBounded target cs) :
    historyBounded target ( calculate_rate_ratio gain target cs fill).2 := by
  intro x hx
  have hhist : ( calculate_rate_ratio gain target cs fill).2.history =
      cs.history.set cs.histidx (clampOffset target (target - fill)) := rfl
  rw [hhist] at hx
  rcases List.mem_or_eq_of_mem_set hx with h1 | h1
  · exact hb x h1
  · subst h1
    exact clampOffset_bounds target _ ht

lemma historyBounded_run (gain : ℚ) (target : Int) (ht : 0 ≤ target) (fills : List Int) :
    ∀ cs, historyBounded target cs →
      historyBounded target (control_run gain target cs fills) := by
  induction fills with
  | nil => intro cs h; exact h
  | cons f fs ih =>
      intro cs h
      exact ih _ (historyBounded_step gain target ht cs f h)

lemma control_run_length (gain : ℚ) (target : Int) (fills : List Int) :
    ∀ cs, (control_run gain target cs fills).history.length = cs.history.length := by
  induction fills with
  | nil => intro cs; rfl
  | cons f fs ih =>
      intro cs
      have hstep : ( calculate_rate_ratio gain target cs f).2.history.length =
          cs.history.length := List.length_set cs.history _ _
      have : control_run gain target cs (f :: fs) =
          control_run gain target ( calculate_rate_ratio gain target cs f).2 fs := rfl
      rw [this, ih, hstep]

lemma control_init_bounded (target : Int) (ht : 0 ≤ target) (hist_size : Nat) :
    historyBounded target (control_init hist_size) := by
  intro x hx
  have := List.eq_of_mem_replicate hx
  subst this
  omega

/-- C9: for every history produced by running the control loop from the
open state (zeroed history of any positive length H) over any sequence of
fill observations, and every current fill level, the returned ratio is in
[1 - G*T, 1 + G*T]: for the PCM sink G = 0.000004 and T = 128, for the
AC-3 sink G = 0.0000013334 and T = 384, because each stored offset is
clamped to [-T, T] and the ratio is 1 plus G times the history average. -/
theorem c9_ratio_within_gain_times_target (hist_size : Nat) (hpos : 0 < hist_size)
    (fills : List Int) (fill : Int) :
    (1 - PCM_SINK_LOOP_GAIN * (PCM_SINK_BUFFER_TARGET_SAMPLES : ℚ) ≤
        ( calculate_rate_ratio PCM_SINK_LOOP_GAIN PCM_SINK_BUFFER_TARGET_SAMPLES
          (control_run PCM_SINK_LOOP_GAIN PCM_SINK_BUFFER_TARGET_SAMPLES
            (control_init hist_size) fills) fill).1 ∧
      ( calculate_rate_ratio PCM_SINK_LOOP_GAIN PCM_SINK_BUFFER_TARGET_SAMPLES
          (control_run PCM_SINK_LOOP_GAIN PCM_SINK_BUFFER_TARGET_SAMPLES
            (control_init hist_size) fills) fill).1 ≤
        1 + PCM_SINK_LOOP_GAIN * (PCM_SINK_BUFFER_TARGET_SAMPLES : ℚ)) ∧
    (1 - AC3_SINK_LOOP_GAIN * (AC3_SINK_BUFFER_TARGET_SAMPLES : ℚ) ≤
        ( calculate_rate_ratio AC3_SINK_LOOP_GAIN AC3_SINK_BUFFER_TARGET_SAMPLES
          (control_run AC3_SINK_LOOP_GAIN AC3_SINK_BUFFER_TARGET_SAMPLES
            (control_init hist_size) fills) fill).1 ∧
      ( calculate_rate_ratio AC3_SINK_LOOP_GAIN AC3_SINK_BUFFER_TARGET_SAMPLES
          (control_run AC3_SINK_LOOP_GAIN AC3_SINK_BUFFER_TARGET_SAMPLES
            (control_init hist_size) fills) fill).1 ≤
        1 + AC3_SINK_LOOP_GAIN * (AC3_SINK_BUFFER_TARGET_SAMPLES : ℚ)) := by
  have hlenP := control_run_length PCM_SINK_LOOP_GAIN PCM_SINK_BUFFER_TARGET_SAMPLES fills
    (control_init hist_size)
  have hlenA := control_run_length AC3_SINK_LOOP_GAIN AC3_SINK_BUFFER_TARGET_SAMPLES fills
    (control_init hist_size)
  have hinitlen : (control_init hist_size).history.length = hist_size := by
    simp [control_init]
  constructor
  · refine rate_ratio_bound _ _ ?_ ?_ _ fill ?_ ?_
    · unfold PCM_SINK_LOOP_GAIN
      norm_num
    · unfold PCM_SINK_BUFFER_TARGET_SAMPLES
      norm_num
    · intro hnil
      rw [hnil] at hlenP
      simp [hinitlen] at hlenP
      omega
    · exact historyBounded_run _ _ (by unfold PCM_SINK_BUFFER_TARGET_SAMPLES; norm_num) fills _
        (control_init_bounded _ (by unfold PCM_SINK_BUFFER_TARGET_SAMPLES; norm_num) hist_size)
  · refine rate_ratio_bound _ _ ?_ ?_ _ fill ?_ ?_
    · unfold AC3_SINK_LOOP_GAIN
      norm_num
    · unfold AC3_SINK_BUFFER_TARGET_SAMPLES
      norm_num
    · intro hnil
      rw [hnil] at hlenA
      simp [hinitlen] at hlenA
      omega
    · exact historyBounded_run _ _ (by unfold AC3_SINK_BUFFER_TARGET_SAMPLES; norm_num) fills _
        (control_init_bounded _ (by unfold AC3_SINK_BUFFER_TARGET_SAMPLES; norm_num) hist_size)

/-- C9 witness: history length 1, no prior steps, current fill 0. -/
theorem c9_ratio_within_gain_times_target_witness :
    0 < 1 ∧
    ( calculate_rate_ratio PCM_SINK_LOOP_GAIN PCM_SINK_BUFFER_TARGET_SAMPLES
        (control_run PCM_SINK_LOOP_GAIN PCM_SINK_BUFFER_TARGET_SAMPLES
          (control_init 1) []) 0).1 ≤
      1 + PCM_SINK_LOOP_GAIN * (PCM_SINK_BUFFER_TARGET_SAMPLES : ℚ) :=
  ⟨Nat.one_pos, (c9_ratio_within_gain_times_target 1 Nat.one_pos [] 0).1.2⟩
